import Mathlib

/-!
Verification of the Customer Credit Ledger Reconciliation Engine of the
lalita-bills repository (src/streamlit_app.py), shallowly embedded in Lean 4.

Conventions of the embedding:
* pandas cell values feeding the phone normalizer are modelled by `PyVal`:
  a missing value (Python None / float NaN, exactly the values on which
  pd.isna is true), a numeric cell, or a string cell.  Numeric values
  are modelled as rationals (the Python floats occurring here are small
  integers-with-decimal-noise, exactly representable).
* Python exceptions are modelled with `Except Unit`.
* Money amounts (pandas floats) are modelled as rationals.
* Python strings are character sequences, so string operations are
  modelled character-wise over `String.data`.
-/

/-- Toward-zero truncation of a rational: the behaviour of Python
int() on a float. -/
def pyInt (q : ℚ) : Int :=
  if q < 0 then -(Int.floor (-q)) else Int.floor q

/-- Decimal digits of a natural number, most significant first.
First argument is fuel (any value larger than the digit count works). -/
def natDigits : Nat → Nat → List Char
  | 0, _ => []
  | fuel + 1, n =>
    if n < 10 then [Char.ofNat (48 + n)]
    else natDigits fuel (n / 10) ++ [Char.ofNat (48 + n % 10)]

/-- The behaviour of Python str() on an int: decimal representation,
with a leading minus sign for negative values. -/
def pyStr (i : Int) : String :=
  if i < 0 then String.mk ('-' :: natDigits (i.natAbs + 1) i.natAbs)
  else String.mk (natDigits (i.natAbs + 1) i.natAbs)

/-- Value of a list of decimal digit characters. -/
def digitsToNat (cs : List Char) : Nat :=
  cs.foldl (fun a c => 10 * a + (c.toNat - 48)) 0

/-- The behaviour of Python float() on the strings relevant here:
an optional sign, then decimal digits with at most one decimal point
(at least one digit in total).  Returns Option.none exactly when Python
float() raises ValueError on such strings (scientific notation, inf/nan
and surrounding whitespace are outside the modelled input domain). -/
def parseFloat (s : String) : Option ℚ :=
  let cs := s.data
  let isNeg : Bool :=
    match cs with
    | '-' :: _ => true
    | _ => false
  let body : List Char :=
    match cs with
    | '-' :: t => t
    | '+' :: t => t
    | _ => cs
  let signed : ℚ → ℚ := fun q => if isNeg then -q else q
  match body.splitOn '.' with
  | [ip] =>
    if ip ≠ [] ∧ ip.all Char.isDigit then
      Option.some (signed (digitsToNat ip : ℚ))
    else Option.none
  | [ip, fp] =>
    if (ip ≠ [] ∨ fp ≠ []) ∧ ip.all Char.isDigit ∧ fp.all Char.isDigit then
      Option.some (signed ((digitsToNat ip : ℚ) + (digitsToNat fp : ℚ) / 10 ^ fp.length))
    else Option.none
  | _ => Option.none

deriving instance DecidableEq for Except

/-- A pandas cell value as seen by normalize_phone. -/
inductive PyVal where
  | na                -- missing: Python None or float NaN (pd.isna is true)
  | num (q : ℚ)       -- a numeric cell
  | str (s : String)  -- a string cell
deriving DecidableEq

/-- Python str.startswith, character-wise. -/
def strStartsWith (s pre : String) : Bool :=
  pre.data.isPrefixOf s.data

/-- Python len() on a string: number of characters. -/
def strLen (s : String) : Nat :=
  s.data.length

/-- Python s[n:]: drop the first n characters. -/
def strDropFirst (s : String) (n : Nat) : String :=
  String.mk (s.data.drop n)

/-- Python substring containment (the needle occurs contiguously in the
haystack), character-wise. -/
def strContains (hay needle : String) : Bool :=
  (List.range (hay.data.length + 1)).any
    (fun i => needle.data.isPrefixOf (hay.data.drop i))

/-- Python str.lower, character-wise; models the case-insensitive
name search. -/
def strLower (s : String) : String :=
  String.mk (s.data.map Char.toLower)

/-- The string-manipulation part of normalize_phone
(src/streamlit_app.py lines 63-71): strip the leading "91" when the
string starts with "91" and has length 12; the final length-10 check
returns phone_str on both branches, exactly as the source does. -/
def normStrPart (phone_str : String) : String :=
  let phone_str2 :=
    if strStartsWith phone_str "91" && strLen phone_str == 12 then
      strDropFirst phone_str 2
    else phone_str
  if strLen phone_str2 == 10 then phone_str2 else phone_str2

/-- The body of normalize_phone after the pd.isna check
(src/streamlit_app.py lines 60-71), applied to the parsed numeric
value: phone_str = str(int(float(phone))), then the "91" stripping. -/
def normBody (q : ℚ) : String :=
  normStrPart (pyStr (pyInt q))

/-- normalize_phone (src/streamlit_app.py lines 55-71).
Except.error models the ValueError raised by float() on a
non-numeric string; Except.ok Option.none models the Python None
returned for missing input. -/
def normalize_phone (phone : PyVal) : Except Unit (Option String) :=
  match phone with
  | PyVal.na => Except.ok Option.none
  | PyVal.num q => Except.ok (Option.some (normBody q))
  | PyVal.str s =>
    match parseFloat s with
    | Option.some q => Except.ok (Option.some (normBody q))
    | Option.none => Except.error ()

/-- The Identity Normalizer algorithm as the spec words it (section 4.1):
coerce to an integer-valued string; if the string has exactly 12 digits
and starts with the 2-digit prefix "91", strip the prefix, leaving 10
digits; otherwise return the coerced string unchanged.  Stated from the
spec text, to be compared with the source normalizer. -/
def normalizeSpecC4 (q : ℚ) : String :=
  let coerced := pyStr (pyInt q)
  if strLen coerced = 12 ∧ strStartsWith coerced "91" = true then
    strDropFirst coerced 2
  else coerced

/-- A row of the df_receipts dataframe (sheet "receipts"), restricted to
the columns the reconciliation core reads. -/
structure Receipt where
  CustomerName : String
  CustomerNumber : PyVal
  Total : ℚ
  PaymentMode : String
deriving DecidableEq

/-- The NormalizedPhone column (src/streamlit_app.py line 142):
normalize_phone applied to CustomerNumber. -/
def receiptKey (r : Receipt) : Except Unit (Option String) :=
  normalize_phone r.CustomerNumber

/-- Pair every receipt with its NormalizedPhone, propagating the
ValueError that df.apply(normalize_phone) would raise on any row. -/
def keyedReceipts : List Receipt → Except Unit (List (Option String × Receipt))
  | [] => Except.ok []
  | r :: rest =>
    match receiptKey r, keyedReceipts rest with
    | Except.ok k, Except.ok ps => Except.ok ((k, r) :: ps)
    | Except.error e, _ => Except.error e
    | _, Except.error e => Except.error e

/-- The distinct non-null group keys, in order of first appearance
(pandas groupby with dropna=True drops null keys; it sorts the group
keys in its output, but every property proved below is independent of
the inter-group order, so first-appearance order is used here). -/
def groupKeys : List (Option String) → List String
  | [] => []
  | Option.none :: t => groupKeys t
  | Option.some k :: t => k :: (groupKeys t).filter (fun x => !(x == k))

/-- Sum of the Total column over one group (agg Total: sum,
src/streamlit_app.py line 149). -/
def groupTotal (pairs : List (Option String × Receipt)) (k : String) : ℚ :=
  ((pairs.filter (fun p => p.1 == Option.some k)).map (fun p => p.2.Total)).sum

/-- First receipt of one group in input order (agg CustomerName: first /
CustomerNumber: first, src/streamlit_app.py lines 147-148). -/
def groupFirst (pairs : List (Option String × Receipt)) (k : String) : Option Receipt :=
  (pairs.find? (fun p => p.1 == Option.some k)).map Prod.snd

/-- A row of the customer_summary dataframe
(src/streamlit_app.py lines 146-150). -/
structure CustomerSummary where
  NormalizedPhone : String
  CustomerName : String
  CustomerNumber : PyVal
  Total : ℚ
deriving DecidableEq

/-- df.groupby(NormalizedPhone, dropna=True).agg(CustomerName: first,
CustomerNumber: first, Total: sum) (src/streamlit_app.py lines 146-150). -/
def customer_summary (pairs : List (Option String × Receipt)) : List CustomerSummary :=
  (groupKeys (pairs.map Prod.fst)).map (fun k =>
    { NormalizedPhone := k
      CustomerName := ((groupFirst pairs k).map Receipt.CustomerName).getD ""
      CustomerNumber := ((groupFirst pairs k).map Receipt.CustomerNumber).getD PyVal.na
      Total := groupTotal pairs k })

/-- One value of the payment_tracker JSON dict
(src/streamlit_app.py lines 677-691).  Every field is optional because
the reader defaults each key independently with dict.get. -/
structure TrackerInfo where
  customer_name : Option String := Option.none
  address : Option String := Option.none
  previous_balance : Option ℚ := Option.none
  advance_amount : Option ℚ := Option.none
  payment_status : Option String := Option.none
  amount_paid : Option ℚ := Option.none
  payment_mode : Option String := Option.none
  received_on : Option String := Option.none
  cash_collected : Option Bool := Option.none
  cash_deposited : Option Bool := Option.none
  remarks : Option String := Option.none
  advance_cf : Option ℚ := Option.none
  last_updated : Option String := Option.none
deriving DecidableEq

/-- A string-keyed Python dict, as an association list with unique keys
(lookup finds the first match; insertion replaces in place). -/
def dictGet {β : Type} (t : List (String × β)) (k : String) : Option β :=
  (t.find? (fun p => p.1 == k)).map Prod.snd

/-- dict assignment d[k] = v: replace the binding in place when the key
exists, append otherwise. -/
def dictSet {β : Type} (t : List (String × β)) (k : String) (v : β) : List (String × β) :=
  if (t.find? (fun p => p.1 == k)).isSome then
    t.map (fun p => if p.1 == k then (k, v) else p)
  else t ++ [(k, v)]

/-- A row of the customer_payment_data dataframe
(src/streamlit_app.py lines 169-186).  Field names are the column names
with spaces and punctuation removed. -/
structure PaymentRow where
  Name : String
  Phone : String
  Address : String
  AmountDue : ℚ
  PreviousBalance : ℚ
  AdvanceGiven : String
  AdvanceAmount : ℚ
  PaymentStatus : String
  AmountPaid : ℚ
  RemainingAmount : ℚ
  PaymentMode : String
  ReceivedOn : String
  CashCollected : Bool
  CashDeposited : Bool
  Remarks : String
  AdvanceCF : ℚ
deriving DecidableEq

/-- The loop body of initialize_customer_payment_data
(src/streamlit_app.py lines 154-186): look the phone up in the tracker
(missing entry means an empty dict, so every field takes its default),
compute remaining = amount_due + previous_balance - advance_amount -
amount_paid, and build the view row. -/
def mkPaymentRow (tracker : List (String × TrackerInfo)) (phone name : String)
    (amount_due : ℚ) : PaymentRow :=
  let tracker_info := dictGet tracker phone
  let previous_balance := (tracker_info.bind TrackerInfo.previous_balance).getD 0
  let advance_amount := (tracker_info.bind TrackerInfo.advance_amount).getD 0
  let amount_paid := (tracker_info.bind TrackerInfo.amount_paid).getD 0
  let remaining := amount_due + previous_balance - advance_amount - amount_paid
  { Name := name
    Phone := phone
    Address := (tracker_info.bind TrackerInfo.address).getD ""
    AmountDue := amount_due
    PreviousBalance := previous_balance
    AdvanceGiven := if advance_amount > 0 then "Yes" else "No"
    AdvanceAmount := advance_amount
    PaymentStatus := (tracker_info.bind TrackerInfo.payment_status).getD "Due"
    AmountPaid := amount_paid
    RemainingAmount := remaining
    PaymentMode := (tracker_info.bind TrackerInfo.payment_mode).getD ""
    ReceivedOn := (tracker_info.bind TrackerInfo.received_on).getD ""
    CashCollected := (tracker_info.bind TrackerInfo.cash_collected).getD false
    CashDeposited := (tracker_info.bind TrackerInfo.cash_deposited).getD false
    Remarks := (tracker_info.bind TrackerInfo.remarks).getD ""
    AdvanceCF := (tracker_info.bind TrackerInfo.advance_cf).getD 0 }

/-- The st.session_state fields the reconciliation core touches. -/
structure AppState where
  payment_tracker : List (String × TrackerInfo)
  df_receipts : Option (List Receipt)
  customer_payment_data : Option (List PaymentRow)
deriving DecidableEq

/-- initialize_customer_payment_data (src/streamlit_app.py lines 135-188):
None when no receipts are loaded; otherwise aggregate the receipts and
build one view row per customer_summary row.  Pure: reads the tracker,
never writes it. -/
def initialize_customer_payment_data (s : AppState) :
    Except Unit (Option (List PaymentRow)) :=
  match s.df_receipts with
  | Option.none => Except.ok Option.none
  | Option.some rs =>
    (keyedReceipts rs).map (fun pairs =>
      Option.some ((customer_summary pairs).map (fun c =>
        mkPaymentRow s.payment_tracker c.NormalizedPhone c.CustomerName c.Total)))

/-- The Refresh Data button (src/streamlit_app.py lines 730-732):
recompute customer_payment_data from receipts and tracker. -/
def refreshData (s : AppState) : Except Unit AppState :=
  (initialize_customer_payment_data s).map
    (fun rows => { s with customer_payment_data := rows })

/-- The tracker entry written for one edited row by Save All Changes
(src/streamlit_app.py lines 677-691). -/
def trackerEntryOfRow (row : PaymentRow) (now : String) : TrackerInfo :=
  { customer_name := Option.some row.Name
    address := Option.some row.Address
    previous_balance := Option.some row.PreviousBalance
    advance_amount := Option.some row.AdvanceAmount
    payment_status := Option.some row.PaymentStatus
    amount_paid := Option.some row.AmountPaid
    payment_mode := Option.some row.PaymentMode
    received_on := Option.some row.ReceivedOn
    cash_collected := Option.some row.CashCollected
    cash_deposited := Option.some row.CashDeposited
    remarks := Option.some row.Remarks
    advance_cf := Option.some row.AdvanceCF
    last_updated := Option.some now }

/-- The Save All Changes button (src/streamlit_app.py lines 671-699):
upsert a tracker entry for every edited row, then replace
customer_payment_data wholesale by the edited row set. -/
def saveAllChanges (s : AppState) (edited : List PaymentRow) (now : String) : AppState :=
  { s with
    payment_tracker :=
      edited.foldl (fun t row => dictSet t row.Phone (trackerEntryOfRow row now))
        s.payment_tracker
    customer_payment_data := Option.some edited }

/-- The filter block of the payments tab (src/streamlit_app.py
lines 617-639): keep the row set unchanged when "All" is among the
selected statuses, otherwise keep rows whose status is selected; a
non-empty search string then restricts to rows whose Name contains it
case-insensitively, and likewise for Phone (pandas str.contains is
modelled as plain substring containment; regex metacharacters are
outside the modelled input domain). -/
def applyFilters (rows : List PaymentRow) (filter_status : List String)
    (search_name search_phone : String) : List PaymentRow :=
  let r1 :=
    if "All" ∈ filter_status then rows
    else rows.filter (fun row => row.PaymentStatus ∈ filter_status)
  let r2 :=
    if search_name == "" then r1
    else r1.filter (fun row => strContains (strLower row.Name) (strLower search_name))
  if search_phone == "" then r2
  else r2.filter (fun row => strContains row.Phone search_phone)

/-- The payment status enum of the spec (LedgerRow.paymentStatus). -/
inductive PayStatus where
  | Due
  | Partial
  | Settled
  | Advance
deriving DecidableEq

/-- Typed failures of the Payment Recorder (spec section 7). -/
inductive PayErr where
  | InvalidAmount
  | UnknownCustomer
deriving DecidableEq

/-- Modelled from the spec: the repository has no Payment Recorder under
src/ (payments are entered through the manual bulk edit path), so the
LedgerRow the recorder operates on is taken from spec sections 3 and 4.5:
the stored due/previousBalance/advanceAmount snapshot, the paid total,
the derived remaining, and the status enum. -/
structure RecLedgerRow where
  due : ℚ
  previousBalance : ℚ
  advanceAmount : ℚ
  amountPaid : ℚ
  remaining : ℚ
  status : PayStatus
  mode : String
  date : String
deriving DecidableEq

/-- Modelled from the spec (section 4.5, steps 2-5): apply one payment to
a ledger row: newPaid = oldPaid + amount; newRemaining = due +
previousBalance - advanceAmount - newPaid; status rule newRemaining <= 0
to Settled, else newPaid > 0 to Partial, else Due; persist paid,
remaining, mode, date, status. -/
def applyPayment (r : RecLedgerRow) (amount : ℚ) (mode date : String) : RecLedgerRow :=
  let newPaid := r.amountPaid + amount
  let newRemaining := r.due + r.previousBalance - r.advanceAmount - newPaid
  { r with
    amountPaid := newPaid
    remaining := newRemaining
    status :=
      if newRemaining ≤ 0 then PayStatus.Settled
      else if newPaid > 0 then PayStatus.Partial
      else PayStatus.Due
    mode := mode
    date := date }

/-- Modelled from the spec (section 4.5): recordPayment fails with
InvalidAmount when amount <= 0, with UnknownCustomer when the store has
no row for the phone, and otherwise upserts the updated row. -/
def recordPayment (store : List (String × RecLedgerRow)) (phone : String)
    (amount : ℚ) (mode date : String) :
    Except PayErr (List (String × RecLedgerRow)) :=
  if amount ≤ 0 then Except.error PayErr.InvalidAmount
  else
    match dictGet store phone with
    | Option.none => Except.error PayErr.UnknownCustomer
    | Option.some r =>
      Except.ok (dictSet store phone (applyPayment r amount mode date))

theorem pyInt_natCast (n : ℕ) : pyInt ((n : ℚ)) = (n : ℤ) := by
  unfold pyInt
  rw [if_neg (by simp), Int.floor_natCast]

theorem normBody_natCast (n : ℕ) :
    normBody ((n : ℚ)) = normStrPart (pyStr (n : ℤ)) := by
  unfold normBody
  rw [pyInt_natCast]

theorem norm_str_917234002022 :
    normalize_phone (PyVal.str "917234002022") = Except.ok (Option.some "7234002022") := by
  decide

theorem norm_str_7234002022 :
    normalize_phone (PyVal.str "7234002022") = Except.ok (Option.some "7234002022") := by
  decide

theorem find?_map_replace {β : Type} (t : List (String × β)) (k : String) (v : β) :
    (t.map (fun p => if p.1 == k then (k, v) else p)).find? (fun p => p.1 == k)
      = (t.find? (fun p => p.1 == k)).map (fun _ => (k, v)) := by
  induction t with
  | nil => rfl
  | cons a t ih =>
    rw [List.map_cons, List.find?_cons, List.find?_cons]
    cases hb : (a.1 == k) with
    | true => simp
    | false => simpa [hb] using ih

theorem find?_map_replace_ne {β : Type} (t : List (String × β)) (k k' : String) (v : β)
    (hne : k' ≠ k) :
    (t.map (fun p => if p.1 == k then (k, v) else p)).find? (fun p => p.1 == k')
      = t.find? (fun p => p.1 == k') := by
  induction t with
  | nil => rfl
  | cons a t ih =>
    rw [List.map_cons, List.find?_cons, List.find?_cons]
    cases hb : (a.1 == k) with
    | true =>
      have h1 : (k == k') = false := beq_eq_false_iff_ne.mpr (Ne.symm hne)
      have h2 : (a.1 == k') = false := by
        rw [beq_iff_eq] at hb
        rw [hb]
        exact h1
      simpa [h1, h2] using ih
    | false =>
      cases hb' : (a.1 == k') with
      | true => simp [hb, hb']
      | false => simpa [hb, hb'] using ih

theorem find?_append_none {β : Type} (t l : List (String × β)) (p : String × β → Bool)
    (h : t.find? p = Option.none) : (t ++ l).find? p = l.find? p := by
  induction t with
  | nil => rfl
  | cons a t ih =>
    rw [List.find?_cons] at h
    rw [List.cons_append, List.find?_cons]
    cases hb : p a with
    | true => rw [hb] at h; exact absurd h (by simp)
    | false => rw [hb] at h; exact ih h

theorem find?_append_some {β : Type} (t l : List (String × β)) (p : String × β → Bool)
    (x : String × β) (h : t.find? p = Option.some x) :
    (t ++ l).find? p = Option.some x := by
  induction t with
  | nil => simp at h
  | cons a t ih =>
    rw [List.find?_cons] at h
    rw [List.cons_append, List.find?_cons]
    cases hb : p a with
    | true => rw [hb] at h; exact h
    | false => rw [hb] at h; exact ih h

theorem dictGet_dictSet_self {β : Type} (t : List (String × β)) (k : String) (v : β) :
    dictGet (dictSet t k v) k = Option.some v := by
  unfold dictGet dictSet
  by_cases h : (t.find? (fun p => p.1 == k)).isSome
  · rw [if_pos h, find?_map_replace]
    obtain ⟨p, hp⟩ := Option.isSome_iff_exists.mp h
    rw [hp]
    rfl
  · rw [if_neg h]
    have hnone : t.find? (fun p => p.1 == k) = Option.none :=
      Option.not_isSome_iff_eq_none.mp h
    rw [find?_append_none _ _ _ hnone, List.find?_cons]
    simp only [beq_self_eq_true]
    rfl

theorem dictGet_dictSet_ne {β : Type} (t : List (String × β)) (k k' : String) (v : β)
    (hne : k' ≠ k) :
    dictGet (dictSet t k v) k' = dictGet t k' := by
  unfold dictGet dictSet
  by_cases h : (t.find? (fun p => p.1 == k)).isSome
  · rw [if_pos h, find?_map_replace_ne _ _ _ _ hne]
  · rw [if_neg h]
    cases hf : t.find? (fun p => p.1 == k') with
    | some p =>
      rw [find?_append_some _ _ _ _ hf]
    | none =>
      rw [find?_append_none _ _ _ hf, List.find?_cons]
      have h1 : (k == k') = false := beq_eq_false_iff_ne.mpr (Ne.symm hne)
      simp only [h1]
      rfl

theorem saveFold_untouched (edited : List PaymentRow) (t0 : List (String × TrackerInfo))
    (now : String) (k : String) (h : ∀ row ∈ edited, row.Phone ≠ k) :
    dictGet (edited.foldl
        (fun t row => dictSet t row.Phone (trackerEntryOfRow row now)) t0) k
      = dictGet t0 k := by
  induction edited generalizing t0 with
  | nil => rfl
  | cons a rest ih =>
    rw [List.foldl_cons]
    rw [ih _ (fun r hr => h r (List.mem_cons_of_mem _ hr))]
    exact dictGet_dictSet_ne _ _ _ _ (Ne.symm (h a (List.mem_cons_self _ _)))

theorem saveFold_mem (edited : List PaymentRow) (t0 : List (String × TrackerInfo))
    (now : String) (row : PaymentRow) (hmem : row ∈ edited)
    (hnodup : (edited.map PaymentRow.Phone).Nodup) :
    dictGet (edited.foldl
        (fun t r => dictSet t r.Phone (trackerEntryOfRow r now)) t0) row.Phone
      = Option.some (trackerEntryOfRow row now) := by
  induction edited generalizing t0 with
  | nil => cases hmem
  | cons a rest ih =>
    rw [List.map_cons, List.nodup_cons] at hnodup
    rw [List.foldl_cons]
    rcases List.mem_cons.mp hmem with h1 | h1
    · subst h1
      rw [saveFold_untouched rest _ now row.Phone
        (fun r hr heq => hnodup.1 (heq ▸ List.mem_map_of_mem PaymentRow.Phone hr))]
      exact dictGet_dictSet_self _ _ _
    · exact ih _ h1 hnodup.2

theorem mem_groupKeys (l : List (Option String)) (x : String) :
    x ∈ groupKeys l ↔ Option.some x ∈ l := by
  induction l with
  | nil => simp [groupKeys]
  | cons a t ih =>
    cases a with
    | none => simpa [groupKeys] using ih
    | some k =>
      simp only [groupKeys, List.mem_cons, List.mem_filter, Bool.not_eq_eq_eq_not,
        Bool.not_true, beq_eq_false_iff_ne, Option.some.injEq, ih]
      by_cases hx : x = k
      · simp [hx]
      · simp [hx]

theorem nodup_groupKeys (l : List (Option String)) : (groupKeys l).Nodup := by
  induction l with
  | nil => exact List.nodup_nil
  | cons a t ih =>
    cases a with
    | none => exact ih
    | some k =>
      refine List.nodup_cons.mpr ⟨?_, ih.filter _⟩
      intro hmem
      have h2 := (List.mem_filter.mp hmem).2
      simp at h2

theorem groupTotal_cons_none (r : Receipt) (rest : List (Option String × Receipt))
    (k : String) :
    groupTotal ((Option.none, r) :: rest) k = groupTotal rest k := by
  unfold groupTotal
  rw [List.filter_cons]
  simp

theorem groupTotal_cons_self (k0 : String) (r : Receipt)
    (rest : List (Option String × Receipt)) :
    groupTotal ((Option.some k0, r) :: rest) k0 = r.Total + groupTotal rest k0 := by
  unfold groupTotal
  rw [List.filter_cons]
  simp

theorem groupTotal_cons_ne (k0 : String) (r : Receipt)
    (rest : List (Option String × Receipt)) (k : String) (hne : k ≠ k0) :
    groupTotal ((Option.some k0, r) :: rest) k = groupTotal rest k := by
  unfold groupTotal
  rw [List.filter_cons]
  simp [Ne.symm hne]

theorem groupTotal_of_not_mem (rest : List (Option String × Receipt)) (k : String)
    (h : Option.some k ∉ rest.map Prod.fst) : groupTotal rest k = 0 := by
  unfold groupTotal
  rw [List.filter_eq_nil_iff.mpr]
  · rfl
  · intro p hp hbeq
    rw [beq_iff_eq] at hbeq
    exact h (hbeq ▸ List.mem_map_of_mem Prod.fst hp)

theorem sum_map_filter_ne_of_mem (ks : List String) (g : String → ℚ) (k0 : String)
    (hmem : k0 ∈ ks) (hnd : ks.Nodup) :
    (ks.map g).sum = g k0 + (((ks.filter (fun x => !(x == k0))).map g)).sum := by
  induction ks with
  | nil => cases hmem
  | cons a t ih =>
    rw [List.nodup_cons] at hnd
    rw [List.filter_cons]
    rcases List.mem_cons.mp hmem with h1 | h1
    · have hfa : (a == k0) = true := beq_iff_eq.mpr h1.symm
      have ht2 : t.filter (fun x => !(x == a)) = t :=
        List.filter_eq_self.mpr (fun x hx => by
          simp only [Bool.not_eq_eq_eq_not, Bool.not_true, beq_eq_false_iff_ne]
          intro hxa
          exact hnd.1 (hxa ▸ hx))
      simp [hfa, ht2, h1]
    · have hne : (a == k0) = false :=
        beq_eq_false_iff_ne.mpr (fun heq => hnd.1 (heq ▸ h1))
      simp only [hne, Bool.not_false, if_true]
      rw [List.map_cons, List.sum_cons, List.map_cons, List.sum_cons, ih h1 hnd.2]
      ring

theorem conservation_core (pairs : List (Option String × Receipt)) :
    ((groupKeys (pairs.map Prod.fst)).map (groupTotal pairs)).sum
      = ((pairs.filter (fun p => !(p.1 == Option.none))).map (fun p => p.2.Total)).sum := by
  induction pairs with
  | nil => rfl
  | cons a rest ih =>
    obtain ⟨k?, r⟩ := a
    cases k? with
    | none =>
      have hk : groupKeys (((Option.none, r) :: rest).map Prod.fst)
          = groupKeys (rest.map Prod.fst) := by
        rw [List.map_cons]
        rfl
      have hfil : ((Option.none, r) :: rest).filter (fun p => !(p.1 == Option.none))
          = rest.filter (fun p => !(p.1 == Option.none)) := by
        rw [List.filter_cons]
        simp
      rw [hk, hfil,
        List.map_congr_left (fun k _ => groupTotal_cons_none r rest k), ih]
    | some k0 =>
      have hk : groupKeys (((Option.some k0, r) :: rest).map Prod.fst)
          = k0 :: (groupKeys (rest.map Prod.fst)).filter (fun x => !(x == k0)) := by
        rw [List.map_cons]
        rfl
      have hfil : ((Option.some k0, r) :: rest).filter (fun p => !(p.1 == Option.none))
          = (Option.some k0, r) :: rest.filter (fun p => !(p.1 == Option.none)) := by
        rw [List.filter_cons]
        rfl
      rw [hk, hfil, List.map_cons, List.sum_cons, List.map_cons, List.sum_cons]
      rw [groupTotal_cons_self]
      rw [List.map_congr_left (fun k hk2 => groupTotal_cons_ne k0 r rest k
        (by
          have h2 := (List.mem_filter.mp hk2).2
          simp only [Bool.not_eq_eq_eq_not, Bool.not_true, beq_eq_false_iff_ne] at h2
          exact h2))]
      rw [← ih]
      by_cases hmem : k0 ∈ groupKeys (rest.map Prod.fst)
      · rw [sum_map_filter_ne_of_mem _ (groupTotal rest) _ hmem (nodup_groupKeys _)]
        ring
      · have h0 : groupTotal rest k0 = 0 :=
          groupTotal_of_not_mem rest k0 (fun hc => hmem ((mem_groupKeys _ _).mpr hc))
        have hfeq : (groupKeys (rest.map Prod.fst)).filter (fun x => !(x == k0))
            = groupKeys (rest.map Prod.fst) :=
          List.filter_eq_self.mpr (fun x hx => by
            simp only [Bool.not_eq_eq_eq_not, Bool.not_true, beq_eq_false_iff_ne]
            intro hxk
            exact hmem (hxk ▸ hx))
        rw [hfeq, h0]
        ring

theorem keyed_filter_total (rs : List Receipt) (pairs : List (Option String × Receipt))
    (h : keyedReceipts rs = Except.ok pairs) (k : String) :
    (pairs.filter (fun p => p.1 == Option.some k)).map (fun p => p.2.Total)
      = (rs.filter (fun r => decide (receiptKey r = Except.ok (Option.some k)))).map
          Receipt.Total := by
  induction rs generalizing pairs with
  | nil => cases h; rfl
  | cons r rest ih =>
    simp only [keyedReceipts] at h
    cases hk : receiptKey r with
    | error e =>
      rw [hk] at h
      cases hr : keyedReceipts rest with
      | error e2 => rw [hr] at h; cases h
      | ok ps => rw [hr] at h; cases h
    | ok kk =>
      rw [hk] at h
      cases hr : keyedReceipts rest with
      | error e2 => rw [hr] at h; cases h
      | ok ps =>
        rw [hr] at h
        cases h
        rw [List.filter_cons, List.filter_cons]
        by_cases hkk : kk = Option.some k
        · subst hkk
          have c1 : (((Option.some k, r) : Option String × Receipt).1
              == Option.some k) = true := by simp
          have c2 : decide (receiptKey r = Except.ok (Option.some k)) = true := by
            simp [hk]
          rw [c1, c2]
          simp only [if_true, List.map_cons]
          rw [ih _ hr]
        · have c1 : (((kk, r) : Option String × Receipt).1 == Option.some k) = false :=
            beq_eq_false_iff_ne.mpr hkk
          have c2 : decide (receiptKey r = Except.ok (Option.some k)) = false := by
            simp [hk, hkk]
          rw [c1, c2]
          exact ih _ hr

theorem keyed_groupFirst (rs : List Receipt) (pairs : List (Option String × Receipt))
    (h : keyedReceipts rs = Except.ok pairs) (k : String) :
    groupFirst pairs k
      = rs.find? (fun r => decide (receiptKey r = Except.ok (Option.some k))) := by
  induction rs generalizing pairs with
  | nil => cases h; rfl
  | cons r rest ih =>
    simp only [keyedReceipts] at h
    cases hk : receiptKey r with
    | error e =>
      rw [hk] at h
      cases hr : keyedReceipts rest with
      | error e2 => rw [hr] at h; cases h
      | ok ps => rw [hr] at h; cases h
    | ok kk =>
      rw [hk] at h
      cases hr : keyedReceipts rest with
      | error e2 => rw [hr] at h; cases h
      | ok ps =>
        rw [hr] at h
        cases h
        unfold groupFirst
        rw [List.find?_cons, List.find?_cons]
        by_cases hkk : kk = Option.some k
        · subst hkk
          have c1 : (((Option.some k, r) : Option String × Receipt).1
              == Option.some k) = true := by simp
          have c2 : decide (receiptKey r = Except.ok (Option.some k)) = true := by
            simp [hk]
          rw [c1, c2]
          rfl
        · have c1 : (((kk, r) : Option String × Receipt).1 == Option.some k) = false :=
            beq_eq_false_iff_ne.mpr hkk
          have c2 : decide (receiptKey r = Except.ok (Option.some k)) = false := by
            simp [hk, hkk]
          rw [c1, c2]
          exact ih _ hr

theorem keyed_mem_fst (rs : List Receipt) (pairs : List (Option String × Receipt))
    (h : keyedReceipts rs = Except.ok pairs) (k : String) :
    (Option.some k ∈ pairs.map Prod.fst)
      ↔ ∃ r ∈ rs, receiptKey r = Except.ok (Option.some k) := by
  induction rs generalizing pairs with
  | nil => cases h; simp
  | cons r rest ih =>
    simp only [keyedReceipts] at h
    cases hk : receiptKey r with
    | error e =>
      rw [hk] at h
      cases hr : keyedReceipts rest with
      | error e2 => rw [hr] at h; cases h
      | ok ps => rw [hr] at h; cases h
    | ok kk =>
      rw [hk] at h
      cases hr : keyedReceipts rest with
      | error e2 => rw [hr] at h; cases h
      | ok ps =>
        rw [hr] at h
        cases h
        rw [List.map_cons]
        simp only [List.mem_cons, ih _ hr]
        constructor
        · rintro (h1 | h1)
          · exact ⟨r, Or.inl rfl, h1 ▸ hk⟩
          · obtain ⟨r2, hm, hrk⟩ := h1
            exact ⟨r2, Or.inr hm, hrk⟩
        · rintro ⟨r2, hm | hm, hrk⟩
          · subst hm
            rw [hk] at hrk
            cases hrk
            exact Or.inl rfl
          · exact Or.inr ⟨r2, hm, hrk⟩

theorem countP_beq_of_nodup (ks : List String) (hnd : ks.Nodup) (k : String) :
    ks.countP (fun x => x == k) = if k ∈ ks then 1 else 0 := by
  induction ks with
  | nil => rfl
  | cons a t ih =>
    rw [List.nodup_cons] at hnd
    rw [List.countP_cons]
    by_cases hak : a = k
    · subst hak
      have h0 : t.countP (fun x => x == a) = 0 :=
        List.countP_eq_zero.mpr (fun x hx hb => hnd.1 ((beq_iff_eq.mp hb) ▸ hx))
      simp [h0]
    · have hb : (a == k) = false := beq_eq_false_iff_ne.mpr hak
      have hm : (k ∈ a :: t) ↔ (k ∈ t) := by
        simp [List.mem_cons, Ne.symm hak]
      simp only [hb, ih hnd.2, hm]
      simp

theorem normStrPart_eq_spec (s : String) :
    normStrPart s
      = if strLen s = 12 ∧ strStartsWith s "91" = true then strDropFirst s 2
        else s := by
  unfold normStrPart
  by_cases h1 : strStartsWith s "91" = true
  · by_cases h2 : strLen s = 12
    · simp [h1, h2]
    · simp [h1, h2]
  · simp [h1, fun h : strLen s = 12 ∧ strStartsWith s "91" = true => h1 h.2]

theorem except_map_eq_ok {α β : Type} (f : α → β) (x : Except Unit α) (b : β)
    (h : x.map f = Except.ok b) : ∃ a, x = Except.ok a ∧ f a = b := by
  cases x with
  | error e => simp [Except.map] at h
  | ok a => exact ⟨a, rfl, by simpa [Except.map] using h⟩

theorem initialize_eq_none (s : AppState) (h : s.df_receipts = Option.none) :
    initialize_customer_payment_data s = Except.ok Option.none := by
  unfold initialize_customer_payment_data
  rw [h]

theorem initialize_eq_some (s : AppState) (rs : List Receipt)
    (h : s.df_receipts = Option.some rs) :
    initialize_customer_payment_data s
      = (keyedReceipts rs).map (fun pairs =>
          Option.some ((customer_summary pairs).map (fun c =>
            mkPaymentRow s.payment_tracker c.NormalizedPhone c.CustomerName c.Total))) := by
  unfold initialize_customer_payment_data
  rw [h]

/-- C1: for every reconciliation, each view row's Remaining Amount equals
amountDue + previousBalance - advanceAmount - amountPaid exactly, with
missing tracker fields defaulting to 0; in particular a customer with
amountDue 150, previousBalance 20, advanceAmount 10 and no recorded
amount_paid reconciles to remaining 160. -/
theorem claim_C1 :
    (∀ (s : AppState) (rows : List PaymentRow),
      initialize_customer_payment_data s = Except.ok (Option.some rows) →
      ∀ row ∈ rows,
        row.RemainingAmount
          = row.AmountDue + row.PreviousBalance - row.AdvanceAmount - row.AmountPaid)
    ∧ (∀ (tracker : List (String × TrackerInfo)) (phone name : String) (due : ℚ),
        dictGet tracker phone = Option.none →
          (mkPaymentRow tracker phone name due).PreviousBalance = 0
          ∧ (mkPaymentRow tracker phone name due).AdvanceAmount = 0
          ∧ (mkPaymentRow tracker phone name due).AmountPaid = 0)
    ∧ (mkPaymentRow
        [("7234002022",
          { previous_balance := Option.some 20, advance_amount := Option.some 10 })]
        "7234002022" "Asha" 150).RemainingAmount = 160 := by
  refine ⟨?_, ?_, ?_⟩
  · intro s rows h row hrow
    cases hdf : s.df_receipts with
    | none =>
      rw [initialize_eq_none s hdf] at h
      cases h
    | some rs =>
      rw [initialize_eq_some s rs hdf] at h
      obtain ⟨pairs, hk, hf⟩ := except_map_eq_ok _ _ _ h
      cases hf
      obtain ⟨c, hc, hrw⟩ := List.mem_map.mp hrow
      rw [← hrw]
      rfl
  · intro tracker phone name due h
    refine ⟨?_, ?_, ?_⟩ <;> simp [mkPaymentRow, h]
  · have hd : dictGet
        [("7234002022",
          ({ previous_balance := Option.some 20,
             advance_amount := Option.some 10 } : TrackerInfo))] "7234002022"
        = Option.some
            { previous_balance := Option.some 20, advance_amount := Option.some 10 } := rfl
    show (150 : ℚ) + ((Option.some (20 : ℚ)).getD 0)
        - ((Option.some (10 : ℚ)).getD 0) - ((Option.none : Option ℚ).getD 0) = 160
    norm_num

theorem claim_C1_witness :
    (mkPaymentRow [] "7234002022" "Asha" ((150 : ℚ) + 0)).RemainingAmount
        = (mkPaymentRow [] "7234002022" "Asha" ((150 : ℚ) + 0)).AmountDue
          + (mkPaymentRow [] "7234002022" "Asha" ((150 : ℚ) + 0)).PreviousBalance
          - (mkPaymentRow [] "7234002022" "Asha" ((150 : ℚ) + 0)).AdvanceAmount
          - (mkPaymentRow [] "7234002022" "Asha" ((150 : ℚ) + 0)).AmountPaid
    ∧ ((mkPaymentRow [] "7234002022" "Asha" 0).PreviousBalance = 0
      ∧ (mkPaymentRow [] "7234002022" "Asha" 0).AdvanceAmount = 0
      ∧ (mkPaymentRow [] "7234002022" "Asha" 0).AmountPaid = 0) :=
  ⟨claim_C1.1
      ⟨[], Option.some [(⟨"Asha", PyVal.str "7234002022", 150, "Credit"⟩ : Receipt)],
        Option.none⟩
      [mkPaymentRow [] "7234002022" "Asha" ((150 : ℚ) + 0)] rfl
      (mkPaymentRow [] "7234002022" "Asha" ((150 : ℚ) + 0))
      (List.mem_singleton.mpr rfl),
   claim_C1.2.1 [] "7234002022" "Asha" 0 rfl⟩

/-- C2 (counterexample): the string "N/A" is a non-null input on which
normalize_phone raises a ValueError (modelled as Except.error) instead of
producing a string or a soft null, so the claim that every non-null input
always yields a string and never raises is false. -/
theorem claim_C2_counterexample :
    PyVal.str "N/A" ≠ PyVal.na
    ∧ normalize_phone (PyVal.str "N/A") = Except.error () := by
  exact ⟨by decide, by decide⟩

/-- C2 (amended): normalize_phone returns null exactly when the input is
null/missing; on every numeric input, and on every string input that
Python float() parses, it returns a string without raising; but on a
string that float() does not parse it raises a ValueError rather than
fail soft. -/
theorem claim_C2_amended :
    (∀ v : PyVal, normalize_phone v = Except.ok Option.none ↔ v = PyVal.na)
    ∧ (∀ q : ℚ, normalize_phone (PyVal.num q) = Except.ok (Option.some (normBody q)))
    ∧ (∀ (s : String) (q : ℚ), parseFloat s = Option.some q →
        normalize_phone (PyVal.str s) = Except.ok (Option.some (normBody q)))
    ∧ (∀ s : String, parseFloat s = Option.none →
        normalize_phone (PyVal.str s) = Except.error ()) := by
  refine ⟨?_, ?_, ?_, ?_⟩
  · intro v
    cases v with
    | na => simp [normalize_phone]
    | num q => simp [normalize_phone]
    | str s =>
      cases hp : parseFloat s with
      | none => simp [normalize_phone, hp]
      | some q => simp [normalize_phone, hp]
  · intro q
    rfl
  · intro s q h
    simp [normalize_phone, h]
  · intro s h
    simp [normalize_phone, h]

theorem claim_C2_witness :
    normalize_phone (PyVal.str "7234002022")
        = Except.ok (Option.some (normBody ((7234002022 : ℕ) : ℚ)))
    ∧ normalize_phone (PyVal.str "N/A") = Except.error () :=
  ⟨claim_C2_amended.2.2.1 "7234002022" ((7234002022 : ℕ) : ℚ) rfl,
   claim_C2_amended.2.2.2 "N/A" rfl⟩

/-- C4: the source normalizer agrees exactly with the spec algorithm:
coerce to an integer-valued string (truncating any fractional part), strip
the first two digits exactly when the coerced string has 12 digits and
starts with "91" (leaving 10 digits), and otherwise return the coerced
string unchanged even when its length is not 10; in particular both
"917234002022" and "7234002022" normalize to "7234002022" and so feed the
same aggregate group. -/
theorem claim_C4 :
    (∀ q : ℚ, normBody q = normalizeSpecC4 q)
    ∧ (∀ (n : ℕ) (f : ℚ), 0 ≤ f → f < 1 → pyInt ((n : ℚ) + f) = (n : ℤ))
    ∧ (∀ s : String, strLen s = 12 → strStartsWith s "91" = true →
        strLen (normStrPart s) = 10)
    ∧ normalize_phone (PyVal.str "917234002022") = Except.ok (Option.some "7234002022")
    ∧ normalize_phone (PyVal.str "7234002022") = Except.ok (Option.some "7234002022") := by
  refine ⟨?_, ?_, ?_, norm_str_917234002022, norm_str_7234002022⟩
  · intro q
    exact normStrPart_eq_spec (pyStr (pyInt q))
  · intro n f h0 h1
    unfold pyInt
    rw [if_neg (by push_neg; positivity), add_comm, Int.floor_add_nat,
      Int.floor_eq_zero_iff.mpr ⟨h0, h1⟩, zero_add]
  · intro s h12 h91
    rw [normStrPart_eq_spec, if_pos ⟨h12, h91⟩]
    simp [strDropFirst, strLen] at h12 ⊢
    rw [h12]

theorem claim_C4_witness :
    pyInt (((9198765432 : ℕ) : ℚ) + 0) = ((9198765432 : ℕ) : ℤ)
    ∧ strLen (normStrPart "917234002022") = 10 :=
  ⟨claim_C4.2.1 9198765432 0 (le_refl 0) zero_lt_one,
   claim_C4.2.2.1 "917234002022" (by decide) (by decide)⟩

/-- C9 (counterexample): a raw phone with a leading zero is not passed
through with its digits unaltered: the integer coercion strips the leading
zero, and here the resulting 12-digit string even gets its "91" prefix
stripped, so "0917234002022" normalizes to "7234002022". -/
theorem claim_C9_counterexample :
    normalize_phone (PyVal.str "0917234002022") = Except.ok (Option.some "7234002022")
    ∧ "7234002022" ≠ "0917234002022" := by
  exact ⟨by decide, by decide⟩

/-- C9 (amended): after the integer coercion (which strips leading zeros
and fraction digits), a phone whose coerced string does not have exactly
12 digits starting with "91" — in particular one with a different
country-code prefix — is passed through unchanged, which may produce
spurious duplicate identities; a number with leading zeros, however, has
those zeros removed by the coercion itself and may even be prefix-stripped,
as "0917234002022" shows. -/
theorem claim_C9_amended :
    (∀ q : ℚ,
      ¬(strLen (pyStr (pyInt q)) = 12 ∧ strStartsWith (pyStr (pyInt q)) "91" = true) →
      normBody q = pyStr (pyInt q))
    ∧ normalize_phone (PyVal.str "447234002022") = Except.ok (Option.some "447234002022")
    ∧ normalize_phone (PyVal.str "0917234002022") = Except.ok (Option.some "7234002022") := by
  refine ⟨?_, by decide, by decide⟩
  intro q h
  unfold normBody
  rw [normStrPart_eq_spec, if_neg h]

theorem claim_C9_witness :
    normBody ((447234002022 : ℕ) : ℚ) = pyStr (pyInt ((447234002022 : ℕ) : ℚ)) :=
  claim_C9_amended.1 ((447234002022 : ℕ) : ℚ) (by decide)

/-- C5: for every payment recorded against a ledger row, the resulting
status is derived deterministically from the updated row: newRemaining <= 0
gives Settled, else newPaid > 0 gives Partial, else Due stays; and the
payment-recording path never emits the Advance status.  The Payment
Recorder is modelled from the spec (section 4.5), as the repository keeps
no recorder under src/. -/
theorem claim_C5 : ∀ (store : List (String × RecLedgerRow)) (phone : String)
    (amount : ℚ) (mode date : String) (store' : List (String × RecLedgerRow)),
    recordPayment store phone amount mode date = Except.ok store' →
    ∃ r, dictGet store phone = Option.some r
      ∧ dictGet store' phone = Option.some (applyPayment r amount mode date)
      ∧ (applyPayment r amount mode date).amountPaid = r.amountPaid + amount
      ∧ (applyPayment r amount mode date).remaining
          = r.due + r.previousBalance - r.advanceAmount - (r.amountPaid + amount)
      ∧ ((applyPayment r amount mode date).remaining ≤ 0 →
          (applyPayment r amount mode date).status = PayStatus.Settled)
      ∧ ((applyPayment r amount mode date).remaining > 0 →
          (applyPayment r amount mode date).amountPaid > 0 →
          (applyPayment r amount mode date).status = PayStatus.Partial)
      ∧ ((applyPayment r amount mode date).remaining > 0 →
          ¬((applyPayment r amount mode date).amountPaid > 0) →
          (applyPayment r amount mode date).status = PayStatus.Due)
      ∧ (applyPayment r amount mode date).status ≠ PayStatus.Advance := by
  intro store phone amount mode date store' h
  unfold recordPayment at h
  by_cases hamt : amount ≤ 0
  · rw [if_pos hamt] at h
    cases h
  · rw [if_neg hamt] at h
    cases hg : dictGet store phone with
    | none => rw [hg] at h; cases h
    | some r =>
      rw [hg] at h
      cases h
      refine ⟨r, rfl, dictGet_dictSet_self _ _ _, rfl, rfl, ?_, ?_, ?_, ?_⟩
      · intro hr
        have hr' : r.due + r.previousBalance - r.advanceAmount
            - (r.amountPaid + amount) ≤ 0 := hr
        simp [applyPayment, hr']
      · intro hr hp
        have hr' : ¬(r.due + r.previousBalance - r.advanceAmount
            - (r.amountPaid + amount) ≤ 0) := not_le.mpr hr
        have hp' : r.amountPaid + amount > 0 := hp
        simp [applyPayment, hr', hp']
      · intro hr hp
        have hr' : ¬(r.due + r.previousBalance - r.advanceAmount
            - (r.amountPaid + amount) ≤ 0) := not_le.mpr hr
        have hp' : ¬(r.amountPaid + amount > 0) := hp
        simp [applyPayment, hr', hp']
      · simp only [applyPayment]
        split
        · simp
        · split
          · simp
          · simp

theorem claim_C5_witness :
    ∃ r, dictGet
        [("7234002022",
          ({ due := 100, previousBalance := 0, advanceAmount := 0, amountPaid := 0,
             remaining := 100, status := PayStatus.Due, mode := "",
             date := "" } : RecLedgerRow))] "7234002022" = Option.some r
      ∧ dictGet
          (dictSet
            [("7234002022",
              ({ due := 100, previousBalance := 0, advanceAmount := 0, amountPaid := 0,
                 remaining := 100, status := PayStatus.Due, mode := "",
                 date := "" } : RecLedgerRow))] "7234002022"
            (applyPayment
              { due := 100, previousBalance := 0, advanceAmount := 0, amountPaid := 0,
                remaining := 100, status := PayStatus.Due, mode := "", date := "" }
              40 "UPI" "2025-01-01")) "7234002022"
          = Option.some (applyPayment r 40 "UPI" "2025-01-01")
      ∧ (applyPayment r 40 "UPI" "2025-01-01").amountPaid = r.amountPaid + 40
      ∧ (applyPayment r 40 "UPI" "2025-01-01").remaining
          = r.due + r.previousBalance - r.advanceAmount - (r.amountPaid + 40)
      ∧ ((applyPayment r 40 "UPI" "2025-01-01").remaining ≤ 0 →
          (applyPayment r 40 "UPI" "2025-01-01").status = PayStatus.Settled)
      ∧ ((applyPayment r 40 "UPI" "2025-01-01").remaining > 0 →
          (applyPayment r 40 "UPI" "2025-01-01").amountPaid > 0 →
          (applyPayment r 40 "UPI" "2025-01-01").status = PayStatus.Partial)
      ∧ ((applyPayment r 40 "UPI" "2025-01-01").remaining > 0 →
          ¬((applyPayment r 40 "UPI" "2025-01-01").amountPaid > 0) →
          (applyPayment r 40 "UPI" "2025-01-01").status = PayStatus.Due)
      ∧ (applyPayment r 40 "UPI" "2025-01-01").status ≠ PayStatus.Advance :=
  claim_C5 _ "7234002022" 40 "UPI" "2025-01-01" _
    (by
      unfold recordPayment
      rw [if_neg (by decide)]
      rfl)

theorem keyed_filter_nonnull (rs : List Receipt) (pairs : List (Option String × Receipt))
    (h : keyedReceipts rs = Except.ok pairs) :
    (pairs.filter (fun p => !(p.1 == Option.none))).map (fun p => p.2.Total)
      = (rs.filter (fun r => decide (receiptKey r ≠ Except.ok Option.none))).map
          Receipt.Total := by
  induction rs generalizing pairs with
  | nil => cases h; rfl
  | cons r rest ih =>
    simp only [keyedReceipts] at h
    cases hk : receiptKey r with
    | error e =>
      rw [hk] at h
      cases hr : keyedReceipts rest with
      | error e2 => rw [hr] at h; cases h
      | ok ps => rw [hr] at h; cases h
    | ok kk =>
      rw [hk] at h
      cases hr : keyedReceipts rest with
      | error e2 => rw [hr] at h; cases h
      | ok ps =>
        rw [hr] at h
        cases h
        rw [List.filter_cons, List.filter_cons]
        cases kk with
        | none =>
          have c1 : (!(((Option.none, r) : Option String × Receipt).1
              == Option.none)) = false := rfl
          have c2 : decide (receiptKey r ≠ Except.ok Option.none) = false := by
            simp [hk]
          rw [c1, c2]
          exact ih _ hr
        | some k2 =>
          have c1 : (!(((Option.some k2, r) : Option String × Receipt).1
              == Option.none)) = true := rfl
          have c2 : decide (receiptKey r ≠ Except.ok Option.none) = true := by
            simp [hk]
          rw [c1, c2]
          simp only [if_true, List.map_cons]
          rw [ih _ hr]

theorem groupFirst_isSome (pairs : List (Option String × Receipt)) (k : String)
    (h : Option.some k ∈ pairs.map Prod.fst) : (groupFirst pairs k).isSome := by
  obtain ⟨p, hp, hfst⟩ := List.mem_map.mp h
  unfold groupFirst
  rw [Option.isSome_map']
  rw [List.find?_isSome]
  exact ⟨p, hp, by simp [hfst]⟩

/-- C3 (counterexample): a single Credit transaction with a missing phone
is dropped by the dropna grouping, so the aggregated total is 0 while the
input total is 50 — the conservation claim fails as universally stated. -/
theorem claim_C3_counterexample :
    keyedReceipts [(⟨"A", PyVal.na, 50, "Credit"⟩ : Receipt)]
      = Except.ok [(Option.none, (⟨"A", PyVal.na, 50, "Credit"⟩ : Receipt))]
    ∧ ((customer_summary
          [(Option.none, (⟨"A", PyVal.na, 50, "Credit"⟩ : Receipt))]).map
            CustomerSummary.Total).sum = 0
    ∧ (([(⟨"A", PyVal.na, 50, "Credit"⟩ : Receipt)] : List Receipt).map
          Receipt.Total).sum = 50
    ∧ (0 : ℚ) ≠ 50 := by
  refine ⟨rfl, rfl, ?_, by decide⟩
  simp

/-- C3 (amended): for every input list of Credit raw transactions on which
phone normalization raises no exception, the sum of amountDue across all
aggregated rows equals the sum of total across the transactions whose
phone normalizes to a non-null key; rows with a missing phone are dropped
by the dropna grouping and their totals are excluded. -/
theorem claim_C3_amended :
    ∀ (rs : List Receipt) (pairs : List (Option String × Receipt)),
      keyedReceipts rs = Except.ok pairs →
      ((customer_summary pairs).map CustomerSummary.Total).sum
        = ((rs.filter (fun r => decide (receiptKey r ≠ Except.ok Option.none))).map
            Receipt.Total).sum := by
  intro rs pairs h
  have h1 : (customer_summary pairs).map CustomerSummary.Total
      = (groupKeys (pairs.map Prod.fst)).map (groupTotal pairs) := by
    unfold customer_summary
    rw [List.map_map]
    rfl
  rw [h1, conservation_core, keyed_filter_nonnull rs pairs h]

theorem claim_C3_witness :
    ((customer_summary [(Option.some "7234002022",
        (⟨"Asha", PyVal.str "7234002022", 150, "Credit"⟩ : Receipt))]).map
          CustomerSummary.Total).sum
      = ((([(⟨"Asha", PyVal.str "7234002022", 150, "Credit"⟩ : Receipt)]
            : List Receipt).filter
          (fun r => decide (receiptKey r ≠ Except.ok Option.none))).map
            Receipt.Total).sum :=
  claim_C3_amended
    [(⟨"Asha", PyVal.str "7234002022", 150, "Credit"⟩ : Receipt)]
    [(Option.some "7234002022",
      (⟨"Asha", PyVal.str "7234002022", 150, "Credit"⟩ : Receipt))]
    (by decide)

/-- C6: for every input list of Credit raw transactions whose phones all
normalize without exception, aggregation produces exactly one output row
per CanonicalPhone appearing among the normalized inputs; each row's
amountDue is the sum of total over the transactions whose phone normalizes
to its key, and its name is the customer name of the first transaction of
that group in input order. -/
theorem claim_C6 : ∀ (rs : List Receipt) (pairs : List (Option String × Receipt)),
    keyedReceipts rs = Except.ok pairs →
    (∀ k : String,
      (customer_summary pairs).countP (fun row => row.NormalizedPhone == k)
        = if ∃ r ∈ rs, receiptKey r = Except.ok (Option.some k) then 1 else 0)
    ∧ (∀ row ∈ customer_summary pairs,
        row.Total = ((rs.filter (fun r =>
            decide (receiptKey r = Except.ok (Option.some row.NormalizedPhone)))).map
              Receipt.Total).sum
        ∧ (rs.find? (fun r =>
            decide (receiptKey r = Except.ok (Option.some row.NormalizedPhone)))).map
              Receipt.CustomerName = Option.some row.CustomerName) := by
  intro rs pairs h
  constructor
  · intro k
    have h1 : (customer_summary pairs).countP (fun row => row.NormalizedPhone == k)
        = (groupKeys (pairs.map Prod.fst)).countP (fun x => x == k) := by
      unfold customer_summary
      rw [List.countP_map]
      rfl
    rw [h1, countP_beq_of_nodup _ (nodup_groupKeys _) k]
    by_cases hmem : Option.some k ∈ pairs.map Prod.fst
    · rw [if_pos ((mem_groupKeys _ _).mpr hmem),
        if_pos ((keyed_mem_fst rs pairs h k).mp hmem)]
    · rw [if_neg (fun hc => hmem ((mem_groupKeys _ _).mp hc)),
        if_neg (fun hc => hmem ((keyed_mem_fst rs pairs h k).mpr hc))]
  · intro row hrow
    obtain ⟨k, hk, hrw⟩ := List.mem_map.mp hrow
    subst hrw
    have hmem : Option.some k ∈ pairs.map Prod.fst := (mem_groupKeys _ _).mp hk
    constructor
    · show groupTotal pairs k
        = ((rs.filter (fun r =>
            decide (receiptKey r = Except.ok (Option.some k)))).map Receipt.Total).sum
      unfold groupTotal
      rw [keyed_filter_total rs pairs h k]
    · show (rs.find? (fun r =>
          decide (receiptKey r = Except.ok (Option.some k)))).map Receipt.CustomerName
        = Option.some (((groupFirst pairs k).map Receipt.CustomerName).getD "")
      rw [← keyed_groupFirst rs pairs h k]
      obtain ⟨r0, hr0⟩ := Option.isSome_iff_exists.mp (groupFirst_isSome pairs k hmem)
      rw [hr0]
      rfl

theorem claim_C6_witness :
    ((customer_summary [(Option.some "7234002022",
        (⟨"Asha", PyVal.str "917234002022", 150, "Credit"⟩ : Receipt)),
      (Option.some "7234002022",
        (⟨"Asha B", PyVal.str "7234002022", 0, "Credit"⟩ : Receipt))]).countP
        (fun row => row.NormalizedPhone == "7234002022")
      = if ∃ r ∈ ([(⟨"Asha", PyVal.str "917234002022", 150, "Credit"⟩ : Receipt),
          (⟨"Asha B", PyVal.str "7234002022", 0, "Credit"⟩ : Receipt)] : List Receipt),
          receiptKey r = Except.ok (Option.some "7234002022") then 1 else 0)
    ∧ ((150 : ℚ) + (0 + 0)
        = ((([(⟨"Asha", PyVal.str "917234002022", 150, "Credit"⟩ : Receipt),
            (⟨"Asha B", PyVal.str "7234002022", 0, "Credit"⟩ : Receipt)]
              : List Receipt).filter (fun r =>
            decide (receiptKey r = Except.ok (Option.some "7234002022")))).map
              Receipt.Total).sum
      ∧ (([(⟨"Asha", PyVal.str "917234002022", 150, "Credit"⟩ : Receipt),
          (⟨"Asha B", PyVal.str "7234002022", 0, "Credit"⟩ : Receipt)]
            : List Receipt).find? (fun r =>
          decide (receiptKey r = Except.ok (Option.some "7234002022")))).map
            Receipt.CustomerName = Option.some "Asha") :=
  ⟨(claim_C6
      [(⟨"Asha", PyVal.str "917234002022", 150, "Credit"⟩ : Receipt),
       (⟨"Asha B", PyVal.str "7234002022", 0, "Credit"⟩ : Receipt)]
      [(Option.some "7234002022",
        (⟨"Asha", PyVal.str "917234002022", 150, "Credit"⟩ : Receipt)),
       (Option.some "7234002022",
        (⟨"Asha B", PyVal.str "7234002022", 0, "Credit"⟩ : Receipt))]
      (by decide)).1 "7234002022",
   (claim_C6
      [(⟨"Asha", PyVal.str "917234002022", 150, "Credit"⟩ : Receipt),
       (⟨"Asha B", PyVal.str "7234002022", 0, "Credit"⟩ : Receipt)]
      [(Option.some "7234002022",
        (⟨"Asha", PyVal.str "917234002022", 150, "Credit"⟩ : Receipt)),
       (Option.some "7234002022",
        (⟨"Asha B", PyVal.str "7234002022", 0, "Credit"⟩ : Receipt))]
      (by decide)).2
      (⟨"7234002022", "Asha", PyVal.str "917234002022", (150 : ℚ) + (0 + 0)⟩
        : CustomerSummary)
      (List.mem_singleton.mpr rfl)⟩

/-- C7: an aggregate whose phone has no tracker entry reconciles to a view
row with all tracked numeric fields 0, status Due, empty strings and false
booleans, without raising an error; and recomputing the view leaves the
persisted tracker (and the receipts) untouched — the synthesized row is
not written to the store. -/
theorem claim_C7 :
    (∀ (tracker : List (String × TrackerInfo)) (phone name : String) (due : ℚ),
      dictGet tracker phone = Option.none →
        mkPaymentRow tracker phone name due
          = { Name := name, Phone := phone, Address := "", AmountDue := due,
              PreviousBalance := 0, AdvanceGiven := "No", AdvanceAmount := 0,
              PaymentStatus := "Due", AmountPaid := 0, RemainingAmount := due,
              PaymentMode := "", ReceivedOn := "", CashCollected := false,
              CashDeposited := false, Remarks := "", AdvanceCF := 0 })
    ∧ (∀ s s' : AppState, refreshData s = Except.ok s' →
        s'.payment_tracker = s.payment_tracker ∧ s'.df_receipts = s.df_receipts) := by
  constructor
  · intro tracker phone name due h
    simp [mkPaymentRow, h]
  · intro s s' h
    unfold refreshData at h
    obtain ⟨rows, hrows, hf⟩ := except_map_eq_ok _ _ _ h
    cases hf
    exact ⟨rfl, rfl⟩

theorem claim_C7_witness :
    mkPaymentRow [] "7234002022" "Asha" 0
      = { Name := "Asha", Phone := "7234002022", Address := "", AmountDue := 0,
          PreviousBalance := 0, AdvanceGiven := "No", AdvanceAmount := 0,
          PaymentStatus := "Due", AmountPaid := 0, RemainingAmount := 0,
          PaymentMode := "", ReceivedOn := "", CashCollected := false,
          CashDeposited := false, Remarks := "", AdvanceCF := 0 }
    ∧ ((⟨[], Option.none, Option.none⟩ : AppState).payment_tracker
          = (⟨[], Option.none, Option.none⟩ : AppState).payment_tracker
        ∧ (⟨[], Option.none, Option.none⟩ : AppState).df_receipts
          = (⟨[], Option.none, Option.none⟩ : AppState).df_receipts) :=
  ⟨claim_C7.1 [] "7234002022" "Asha" 0 rfl,
   claim_C7.2 ⟨[], Option.none, Option.none⟩ ⟨[], Option.none, Option.none⟩ rfl⟩

/-- C8: for every bulk ledger save, every edited row has its tracked fields
wholesale-replaced in the persisted tracker under its phone key, and every
tracker entry whose phone appears in no edited row is left completely
untouched. -/
theorem claim_C8 : ∀ (s : AppState) (edited : List PaymentRow) (now : String),
    (∀ k : String, (∀ row ∈ edited, row.Phone ≠ k) →
      dictGet (saveAllChanges s edited now).payment_tracker k
        = dictGet s.payment_tracker k)
    ∧ (∀ row ∈ edited, (edited.map PaymentRow.Phone).Nodup →
        dictGet (saveAllChanges s edited now).payment_tracker row.Phone
          = Option.some (trackerEntryOfRow row now)) := by
  intro s edited now
  constructor
  · intro k hk
    exact saveFold_untouched edited s.payment_tracker now k hk
  · intro row hrow hnd
    exact saveFold_mem edited s.payment_tracker now row hrow hnd

theorem claim_C8_witness :
    dictGet (saveAllChanges ⟨[], Option.none, Option.none⟩
        [(⟨"Asha", "7234002022", "", 0, 0, "No", 0, "Due", 0, 0, "", "",
            false, false, "", 0⟩ : PaymentRow)] "2025-01-01").payment_tracker "9999"
      = dictGet (⟨[], Option.none, Option.none⟩ : AppState).payment_tracker "9999"
    ∧ dictGet (saveAllChanges ⟨[], Option.none, Option.none⟩
        [(⟨"Asha", "7234002022", "", 0, 0, "No", 0, "Due", 0, 0, "", "",
            false, false, "", 0⟩ : PaymentRow)] "2025-01-01").payment_tracker "7234002022"
      = Option.some (trackerEntryOfRow
          (⟨"Asha", "7234002022", "", 0, 0, "No", 0, "Due", 0, 0, "", "",
            false, false, "", 0⟩ : PaymentRow) "2025-01-01") :=
  ⟨(claim_C8 ⟨[], Option.none, Option.none⟩
      [(⟨"Asha", "7234002022", "", 0, 0, "No", 0, "Due", 0, 0, "", "",
          false, false, "", 0⟩ : PaymentRow)] "2025-01-01").1 "9999" (by decide),
   (claim_C8 ⟨[], Option.none, Option.none⟩
      [(⟨"Asha", "7234002022", "", 0, 0, "No", 0, "Due", 0, 0, "", "",
          false, false, "", 0⟩ : PaymentRow)] "2025-01-01").2
      (⟨"Asha", "7234002022", "", 0, 0, "No", 0, "Due", 0, 0, "", "",
          false, false, "", 0⟩ : PaymentRow) (by decide) (by decide)⟩

/-- C10: after a bulk save performed while a filter is active, the
in-memory view is replaced wholesale by the edited (filtered) row set: a
customer excluded by the filter is absent from the resulting view, even
though that customer's persisted tracker entry and the stored receipts
are untouched (so a recompute from receipts and tracker can restore the
row). -/
theorem claim_C10 : ∀ (s : AppState) (view edited : List PaymentRow)
    (fs : List String) (nameQ phoneQ now : String) (r : PaymentRow),
    s.customer_payment_data = Option.some view →
    r ∈ view →
    r.Phone ∉ (applyFilters view fs nameQ phoneQ).map PaymentRow.Phone →
    (∀ row ∈ edited,
      row.Phone ∈ (applyFilters view fs nameQ phoneQ).map PaymentRow.Phone) →
    ((saveAllChanges s edited now).customer_payment_data = Option.some edited
      ∧ (∀ rows,
          (saveAllChanges s edited now).customer_payment_data = Option.some rows →
          ∀ row ∈ rows, row.Phone ≠ r.Phone)
      ∧ dictGet (saveAllChanges s edited now).payment_tracker r.Phone
          = dictGet s.payment_tracker r.Phone
      ∧ (saveAllChanges s edited now).df_receipts = s.df_receipts) := by
  intro s view edited fs nameQ phoneQ now r hview hr hout hed
  have hne : ∀ row ∈ edited, row.Phone ≠ r.Phone := by
    intro row hrow heq
    exact hout (heq ▸ hed row hrow)
  refine ⟨rfl, ?_, saveFold_untouched edited s.payment_tracker now r.Phone hne, rfl⟩
  intro rows hrows row hrow
  have hrows2 : Option.some edited = Option.some rows := hrows
  cases hrows2
  exact hne row hrow

theorem claim_C10_witness :
    dictGet (saveAllChanges
        ⟨[], Option.none, Option.some
          [(⟨"A", "1", "", 0, 0, "No", 0, "Due", 0, 0, "", "",
              false, false, "", 0⟩ : PaymentRow),
           (⟨"B", "2", "", 0, 0, "No", 0, "Settled", 0, 0, "", "",
              false, false, "", 0⟩ : PaymentRow)]⟩
        [(⟨"B", "2", "", 0, 0, "No", 0, "Settled", 0, 0, "", "",
            false, false, "", 0⟩ : PaymentRow)] "2025-01-01").payment_tracker "1"
      = dictGet ((⟨[], Option.none, Option.some
          [(⟨"A", "1", "", 0, 0, "No", 0, "Due", 0, 0, "", "",
              false, false, "", 0⟩ : PaymentRow),
           (⟨"B", "2", "", 0, 0, "No", 0, "Settled", 0, 0, "", "",
              false, false, "", 0⟩ : PaymentRow)]⟩ : AppState)).payment_tracker "1" :=
  (claim_C10
    ⟨[], Option.none, Option.some
      [(⟨"A", "1", "", 0, 0, "No", 0, "Due", 0, 0, "", "",
          false, false, "", 0⟩ : PaymentRow),
       (⟨"B", "2", "", 0, 0, "No", 0, "Settled", 0, 0, "", "",
          false, false, "", 0⟩ : PaymentRow)]⟩
    [(⟨"A", "1", "", 0, 0, "No", 0, "Due", 0, 0, "", "",
        false, false, "", 0⟩ : PaymentRow),
     (⟨"B", "2", "", 0, 0, "No", 0, "Settled", 0, 0, "", "",
        false, false, "", 0⟩ : PaymentRow)]
    [(⟨"B", "2", "", 0, 0, "No", 0, "Settled", 0, 0, "", "",
        false, false, "", 0⟩ : PaymentRow)]
    ["Settled"] "" "" "2025-01-01"
    (⟨"A", "1", "", 0, 0, "No", 0, "Due", 0, 0, "", "",
        false, false, "", 0⟩ : PaymentRow)
    rfl (by decide) (by decide) (by decide)).2.2.1
